import Mathlib

/-!
# Verification of the "Break the 3C Cycle" entry persistence and aggregation model

Shallow embedding of the repository's data-model code:

* `App.js` (`src/unnamed/part_000`): the `Storage` wrapper, `loadEntries`,
  `saveCurrent`, `historyArray` and the per-item summary counts of
  `renderHistoryItem`;
* `src/components/PerformanceTab.js`: `getLastNDays`, `getConsistencyData`,
  `getGratitudeAndComplaintData`.

JavaScript runtime values reachable in this code are modelled by `JSValue`
(JSON values: null, booleans, integers, strings, arrays, objects).  Property
access on a missing key yields `JSValue.null`, which is falsy and not of
constructor `obj`/`arr`, exactly like `undefined` at every point where this
code inspects such a value (truthiness tests and `Array.isArray` guards), so
a separate `undefined` constructor is not needed.  JavaScript objects are
insertion-ordered maps with unique keys, modelled as association lists; all
keys used by the app are date strings (never array indices), so
`Object.keys` enumerates them in insertion order.

The external `JSON.stringify` / `JSON.parse` library pair is modelled by an
executable serializer and a fuel-based recursive-descent parser over
`List Char`.  The model escapes the two characters (`"` and `\`) that can
occur in serialized user text and make quoting ambiguous; it does not model
`\u` escapes for control characters or fractional/exponent number syntax,
which never arise in this application's payloads.
-/

/-- Model of the JavaScript runtime values this code ever reads or stores. -/
inductive JSValue where
  | null : JSValue
  | bool : Bool → JSValue
  | num : Int → JSValue
  | str : String → JSValue
  | arr : List JSValue → JSValue
  | obj : List (String × JSValue) → JSValue
deriving Repr

/-- JavaScript truthiness of a value: `null`/`undefined`, `false`, `0` and
`""` are falsy; every array and object is truthy. -/
def jsTruthy : JSValue → Bool
  | .null => false
  | .bool b => b
  | .num n => n != 0
  | .str s => s != ""
  | .arr _ => true
  | .obj _ => true

/-- Whether `typeof v === 'object'` holds in JavaScript: true for `null`,
arrays and plain objects, false for booleans, numbers and strings. -/
def jsTypeofObject : JSValue → Bool
  | .null => true
  | .arr _ => true
  | .obj _ => true
  | _ => false

/-- Whether `Array.isArray(v)` holds. -/
def jsIsArray : JSValue → Bool
  | .arr _ => true
  | _ => false

/-- Property read `v[k]`: on an object, the value stored under `k`; absent
keys and non-object receivers yield `null` (standing for `undefined`, which
behaves identically at every use site in this code). -/
def objGet (v : JSValue) (k : String) : JSValue :=
  match v with
  | .obj kvs =>
    match kvs.find? (fun kv => kv.1 == k) with
    | some kv => kv.2
    | none => .null
  | _ => .null

/-- Spread update `{...kvs, [k]: v}`: if `k` is already a key its value is
replaced in place (JavaScript keeps the first-insertion position), otherwise
the new binding is appended at the end. -/
def objUpsert (kvs : List (String × JSValue)) (k : String) (v : JSValue) :
    List (String × JSValue) :=
  if kvs.any (fun kv => kv.1 == k) then
    kvs.map (fun kv => if kv.1 == k then (k, v) else kv)
  else
    kvs ++ [(k, v)]

/-- Serialization of one character inside a JSON string literal: quote and
backslash are escaped, everything else is emitted as is. -/
def escapeChar (c : Char) : List Char :=
  if c = '"' ∨ c = '\\' then ['\\', c] else [c]

/-- Serialization of the body of a JSON string literal. -/
def escapeL : List Char → List Char
  | [] => []
  | c :: cs => escapeChar c ++ escapeL cs

/-- Serialized form of a string literal including its delimiting quotes. -/
def quoteL (s : String) : List Char :=
  '"' :: (escapeL s.data ++ ['"'])

mutual

/-- Model of `JSON.stringify` producing a character list. -/
def stringifyL : JSValue → List Char
  | .null => 'n' :: 'u' :: 'l' :: 'l' :: []
  | .bool true => 't' :: 'r' :: 'u' :: 'e' :: []
  | .bool false => 'f' :: 'a' :: 'l' :: 's' :: 'e' :: []
  | .num n => (toString n).data
  | .str s => quoteL s
  | .arr xs => '[' :: (stringifyItems xs ++ [']'])
  | .obj kvs => '{' :: (stringifyMembers kvs ++ ['}'])

/-- Comma-separated serialization of array elements. -/
def stringifyItems : List JSValue → List Char
  | [] => []
  | [x] => stringifyL x
  | x :: y :: xs => stringifyL x ++ ',' :: stringifyItems (y :: xs)

/-- Comma-separated serialization of object members. -/
def stringifyMembers : List (String × JSValue) → List Char
  | [] => []
  | [kv] => quoteL kv.1 ++ ':' :: stringifyL kv.2
  | kv :: kv2 :: kvs => quoteL kv.1 ++ ':' :: stringifyL kv.2 ++ ',' :: stringifyMembers (kv2 :: kvs)

end

/-- Model of `JSON.stringify` producing a string. -/
def jsonStringify (v : JSValue) : String :=
  String.mk (stringifyL v)

/-- Parse the body of a JSON string literal (the opening quote already
consumed), returning the unescaped characters and the input after the
closing quote. -/
def parseStrBody : List Char → Option (List Char × List Char)
  | [] => none
  | c :: rest =>
    if c = '"' then some ([], rest)
    else if c = '\\' then
      match rest with
      | [] => none
      | e :: rest2 =>
        if e = '"' ∨ e = '\\' then
          match parseStrBody rest2 with
          | some p => some (e :: p.1, p.2)
          | none => none
        else none
    else
      match parseStrBody rest with
      | some p => some (c :: p.1, p.2)
      | none => none

/-- Accumulate a run of decimal digits. -/
def parseDigitsAux (acc : Nat) : List Char → Nat × List Char
  | [] => (acc, [])
  | c :: rest =>
    if c.isDigit then parseDigitsAux (acc * 10 + (c.toNat - 48)) rest
    else (acc, c :: rest)

/-- Parse an integer JSON number (optional minus sign followed by at least
one digit); fractions and exponents are not modelled. -/
def parseNumber : List Char → Option (JSValue × List Char)
  | [] => none
  | c :: rest =>
    if c = '-' then
      match rest with
      | d :: _ =>
        if d.isDigit then
          let p := parseDigitsAux 0 rest
          some (.num (-(Int.ofNat p.1)), p.2)
        else none
      | [] => none
    else if c.isDigit then
      let p := parseDigitsAux 0 (c :: rest)
      some (.num (Int.ofNat p.1), p.2)
    else none

mutual

/-- Fuel-based recursive-descent parser for one JSON value, the model of
`JSON.parse`.  Returns the value and the unconsumed suffix. -/
def parseVal : Nat → List Char → Option (JSValue × List Char)
  | 0, _ => none
  | Nat.succ f, cs =>
    match cs with
    | [] => none
    | c :: rest =>
      if c = 'n' then
        match rest with
        | 'u' :: 'l' :: 'l' :: r => some (.null, r)
        | _ => none
      else if c = 't' then
        match rest with
        | 'r' :: 'u' :: 'e' :: r => some (.bool true, r)
        | _ => none
      else if c = 'f' then
        match rest with
        | 'a' :: 'l' :: 's' :: 'e' :: r => some (.bool false, r)
        | _ => none
      else if c = '"' then
        match parseStrBody rest with
        | some p => some (.str (String.mk p.1), p.2)
        | none => none
      else if c = '[' then
        match parseItems f rest with
        | some p => some (.arr p.1, p.2)
        | none => none
      else if c = '{' then
        match parseMembers f rest with
        | some p => some (.obj p.1, p.2)
        | none => none
      else if c = '-' ∨ c.isDigit then parseNumber (c :: rest)
      else none

/-- Parse the element list of a JSON array up to and including the closing
bracket. -/
def parseItems : Nat → List Char → Option (List JSValue × List Char)
  | 0, _ => none
  | Nat.succ f, cs =>
    match cs with
    | [] => none
    | c :: rest =>
      if c = ']' then some ([], rest)
      else
        match parseVal f (c :: rest) with
        | some (v, r) =>
          match r with
          | [] => none
          | d :: r2 =>
            if d = ',' then
              match parseItems f r2 with
              | some p => if p.1.isEmpty then none else some (v :: p.1, p.2)
              | none => none
            else if d = ']' then some ([v], r2)
            else none
        | none => none

/-- Parse the member list of a JSON object up to and including the closing
brace. -/
def parseMembers : Nat → List Char → Option (List (String × JSValue) × List Char)
  | 0, _ => none
  | Nat.succ f, cs =>
    match cs with
    | [] => none
    | c :: rest =>
      if c = '}' then some ([], rest)
      else if c = '"' then
        match parseStrBody rest with
        | some (kl, r1) =>
          match r1 with
          | [] => none
          | d1 :: r2 =>
            if d1 = ':' then
              match parseVal f r2 with
              | some (v, r3) =>
                match r3 with
                | [] => none
                | d2 :: r4 =>
                  if d2 = ',' then
                    match parseMembers f r4 with
                    | some p =>
                      if p.1.isEmpty then none
                      else some ((String.mk kl, v) :: p.1, p.2)
                    | none => none
                  else if d2 = '}' then some ([(String.mk kl, v)], r4)
                  else none
              | none => none
            else none
        | none => none
      else none

end

/-- Model of `JSON.parse`: parse one value consuming the whole input;
`none` models the `SyntaxError` exception. -/
def parseJSON (s : String) : Option JSValue :=
  match parseVal (s.data.length + 1) s.data with
  | some (v, []) => some v
  | _ => none

mutual

/-- Values containing no JSON numbers; every value the application ever
persists (strings, booleans, arrays, objects) satisfies this. -/
def noNum : JSValue → Bool
  | .null => true
  | .bool _ => true
  | .num _ => false
  | .str _ => true
  | .arr xs => noNumItems xs
  | .obj kvs => noNumMembers kvs

/-- List form of `noNum` for array elements. -/
def noNumItems : List JSValue → Bool
  | [] => true
  | x :: xs => noNum x && noNumItems xs

/-- List form of `noNum` for object members. -/
def noNumMembers : List (String × JSValue) → Bool
  | [] => true
  | kv :: kvs => noNum kv.2 && noNumMembers kvs

end

/-! ## EntryStore: `loadEntries` and `saveCurrent` over the storage backends

`Storage` (App.js lines 29-74) is a key-value backend holding one string
blob under the fixed key `@three_c_daily_entries_v1`; since only that one
key is ever used, the backend state is the optional blob. -/

/-- State of the storage backend: the blob stored under the single key
`@three_c_daily_entries_v1`, if any. -/
structure StoreState where
  blob : Option String
deriving Repr

/-- The web `Storage.setItem` wrapper (App.js lines 41-47): a failing
`localStorage.setItem` is caught inside the wrapper and only logged, so the
caller always sees a normal completion; on failure the stored blob is
unchanged. -/
def localStorageSetItem (st : StoreState) (v : String) (writeFails : Bool) : StoreState :=
  if writeFails then st else { blob := some v }

/-- A backend whose `setItem` can reject (the native `AsyncStorage` branch,
App.js lines 51-64, or the in-memory fallback whose writes always succeed):
the promise either resolves having stored the blob or rejects. -/
def asyncSetItem (_st : StoreState) (v : String) (writeFails : Bool) :
    Except Unit StoreState :=
  if writeFails then .error () else .ok { blob := some v }

/-- Model of `loadEntries` (App.js lines 674-686, identical to 114-126).
The argument is the outcome of `Storage.getItem`: `Except.error` models a
rejected read promise, `none` an absent blob.  The result is the value
passed to `setEntries` — the new in-memory collection.  Every failure path
is absorbed: a rejected read, an absent or empty blob, a `JSON.parse`
failure, and a parsed value that is falsy or not of JavaScript type
'object' all produce the empty collection, and no exception escapes. -/
def loadEntries (readResult : Except Unit (Option String)) : JSValue :=
  match readResult with
  | .error _ => .obj []
  | .ok raw =>
    match raw with
    | none => .obj []
    | some s =>
      if s = "" then .obj []
      else
        match parseJSON s with
        | none => .obj []
        | some parsed =>
          if jsTruthy parsed && jsTypeofObject parsed then parsed else .obj []

/-- Result of one `saveCurrent` call: the in-memory collection afterwards
(the `entries` state), the backend state afterwards, and whether the
failure alert (`Alert.alert('Error', 'Could not save.')`) was shown. -/
structure SaveOutcome where
  entries : List (String × JSValue)
  store : StoreState
  alerted : Bool
deriving Repr

/-- Model of `saveCurrent` (App.js lines 688-698) over a backend whose
write can reject.  On a successful write `setEntries(updated)` publishes
the updated collection; a rejected write is caught, the error alert is
shown, and `setEntries` is never reached, so the in-memory collection stays
at its pre-call value. -/
def saveCurrent (entries : List (String × JSValue)) (todayKey : String)
    (entry : JSValue) (st : StoreState) (writeFails : Bool) : SaveOutcome :=
  let updated := objUpsert entries todayKey entry
  match asyncSetItem st (jsonStringify (.obj updated)) writeFails with
  | .error _ => { entries := entries, store := st, alerted := true }
  | .ok st2 => { entries := updated, store := st2, alerted := false }

/-- Model of `saveCurrent` running against the web `localStorage` wrapper,
whose `setItem` swallows its own failures: the awaited call always
resolves, so `setEntries(updated)` always runs and the alert is never
shown, even when the underlying write failed. -/
def saveCurrentLocalStorage (entries : List (String × JSValue)) (todayKey : String)
    (entry : JSValue) (st : StoreState) (writeFails : Bool) : SaveOutcome :=
  let updated := objUpsert entries todayKey entry
  let st2 := localStorageSetItem st (jsonStringify (.obj updated)) writeFails
  { entries := updated, store := st2, alerted := false }

/-! ## Aggregator: history summary and chart series

`Array.prototype.sort` with the comparator `a.localeCompare(b)` (resp.
`b.localeCompare(a)`) arranges the zero-padded date keys in ascending
(resp. descending) lexicographic order; on the duplicate-free key list this
arrangement is unique, so it is modelled by insertion sort under the
`String` linear order (resp. its reverse). -/

/-- Keys of the collection in ascending lexicographic order:
`Object.keys(entries).sort((a, b) => a.localeCompare(b))`. -/
def sortedKeysAsc (entries : List (String × JSValue)) : List String :=
  List.insertionSort (fun a b : String => a ≤ b) (entries.map (fun kv => kv.1))

/-- Keys of the collection in descending lexicographic order:
`Object.keys(entries).sort((a, b) => b.localeCompare(a))`. -/
def sortedKeysDesc (entries : List (String × JSValue)) : List String :=
  (sortedKeysAsc entries).reverse

/-- Model of `getLastNDays` (PerformanceTab.js lines 9-12): all date keys
sorted ascending, then `slice(-n)`.  JavaScript's `slice(-0)` equals
`slice(0)`, the whole array, so `n = 0` keeps every date. -/
def getLastNDays (entries : List (String × JSValue)) (n : Nat) : List String :=
  let allDates := sortedKeysAsc entries
  if n = 0 then allDates else allDates.drop (allDates.length - n)

/-- Model of `historyArray` (App.js lines 202-205, the data selected by
`recentHistory`): keys sorted descending, truncated to 7, each paired with
its entry. -/
def historyArray (entries : List (String × JSValue)) :
    List (String × JSValue) :=
  ((sortedKeysDesc entries).take 7).map (fun k => (k, objGet (.obj entries) k))

/-- Truthiness filter used by `renderHistoryItem`'s `.filter(Boolean)`. -/
def truthyFilled (g : JSValue) : Bool := jsTruthy g

/-- Summary counts computed by `renderHistoryItem` (App.js lines 184-200)
for one history item's value: truthy gratitude slots, truthy `caught`
flags, truthy night fields.  `item?.value ?? {}` turns a nullish value into
the empty object first. -/
def renderHistoryItemCounts (value : JSValue) : Nat × Nat × Nat :=
  let v := match value with | .null => .obj [] | x => x
  let morningCount :=
    if jsTruthy (objGet v "morning") then
      match objGet (objGet v "morning") "gratitude" with
      | .arr gs => (gs.filter truthyFilled).length
      | _ => 0
    else 0
  let caughtCount :=
    if jsTruthy (objGet v "midday") then
      match objGet (objGet v "midday") "caught" with
      | .arr fs => (fs.filter truthyFilled).length
      | _ => 0
    else 0
  let nightFilled :=
    ([objGet (objGet v "night") "wentWell",
      objGet (objGet v "night") "handled",
      objGet (objGet v "night") "improve"].filter truthyFilled).length
  (morningCount, caughtCount, nightFilled)

/-- Math.round of the quotient `num / den` (for nonnegative arguments):
floor of the quotient plus one half.  At every count this application can
produce, the IEEE-double evaluation of `Math.round((count / den) * 100)`
agrees with this exact rational rounding. -/
def jsRound (num den : Nat) : Nat := (2 * num + den) / (2 * den)

/-- The per-string filter used by both chart series: `g && g.trim()` is
truthy exactly when `g` is a string whose trim is nonempty, that is, a
string with at least one non-whitespace character (on falsy values the
expression is falsy; truthy values reaching `.trim()` in this code are
strings). -/
def chartFilled (g : JSValue) : Bool :=
  jsTruthy g && (match g with
    | .str s => !(s.data.all Char.isWhitespace)
    | _ => false)

/-- Gratitude part of the chart counts (PerformanceTab.js lines 24-26 and
64-67): number of gratitude slots with nonempty trimmed text, 0 when
`morning` is falsy or `morning.gratitude` is not an array. -/
def gratitudeCountOf (entry : JSValue) : Nat :=
  if jsTruthy (objGet entry "morning") then
    match objGet (objGet entry "morning") "gratitude" with
    | .arr gs => (gs.filter chartFilled).length
    | _ => 0
  else 0

/-- Night part of the completion count (PerformanceTab.js lines 28-32): one
for each of `wentWell`, `handled`, `improve` with nonempty trimmed text, 0
when `night` is falsy. -/
def nightCountOf (entry : JSValue) : Nat :=
  if jsTruthy (objGet entry "night") then
    (if chartFilled (objGet (objGet entry "night") "wentWell") then 1 else 0) +
    (if chartFilled (objGet (objGet entry "night") "handled") then 1 else 0) +
    (if chartFilled (objGet (objGet entry "night") "improve") then 1 else 0)
  else 0

/-- The entry consulted for a chart date: `entries[date] || {}`. -/
def chartEntryFor (entries : List (String × JSValue)) (d : String) : JSValue :=
  let e := objGet (.obj entries) d
  if jsTruthy e then e else .obj []

/-- Completion percentage of one date (PerformanceTab.js lines 20-34):
`Math.round((count / 6) * 100)` for the gratitude-plus-night fill count. -/
def consistencyPercent (entry : JSValue) : Nat :=
  jsRound (100 * (gratitudeCountOf entry + nightCountOf entry)) 6

/-- Model of `getConsistencyData` (PerformanceTab.js lines 14-46) restricted
to its data payload: the last-7 ascending date window paired with each
date's completion percentage (the `fullLabels` and `datasets[0].data`
arrays, index-aligned). -/
def getConsistencyData (entries : List (String × JSValue)) : List (String × Nat) :=
  (getLastNDays entries 7).map
    (fun d => (d, consistencyPercent (chartEntryFor entries d)))

/-- Complaint flag of one date (PerformanceTab.js lines 71-75): truthiness
of `midday.caught[0]` behind the `midday && Array.isArray(midday.caught)`
guard. -/
def complainedOf (entry : JSValue) : Bool :=
  if jsTruthy (objGet entry "midday") then
    match objGet (objGet entry "midday") "caught" with
    | .arr (g0 :: _) => jsTruthy g0
    | _ => false
  else false

/-- Gratitude percentage of one date (PerformanceTab.js lines 63-68):
`Math.round((gratitudeCount / 3) * 100)`. -/
def gratitudePercent (entry : JSValue) : Nat :=
  jsRound (100 * gratitudeCountOf entry) 3

/-- Complaint percentage of one date (PerformanceTab.js line 76): 100 when
the complaint flag is set, else 0. -/
def complaintPercent (entry : JSValue) : Nat :=
  if complainedOf entry then 100 else 0

/-- Model of `getGratitudeAndComplaintData` (PerformanceTab.js lines 51-92)
restricted to its data payload: the last-`n` ascending date window paired
with each date's complaint and gratitude percentages (the `fullLabels`,
`datasets[0].data` and `datasets[1].data` arrays, index-aligned). -/
def getGratitudeAndComplaintData (entries : List (String × JSValue)) (n : Nat) :
    List (String × Nat × Nat) :=
  (getLastNDays entries n).map
    (fun d =>
      (d, complaintPercent (chartEntryFor entries d),
        gratitudePercent (chartEntryFor entries d)))

/-! ## Round-trip of the serialization model -/

theorem parseStrBody_escapeL (s : List Char) (rest : List Char) :
    parseStrBody (escapeL s ++ '"' :: rest) = some (s, rest) := by
  induction s with
  | nil =>
    rw [escapeL]
    rw [List.nil_append, parseStrBody.eq_def]
    simp
  | cons c cs ih =>
    by_cases hc : c = '"' ∨ c = '\\'
    · simp only [escapeL, escapeChar, if_pos hc, List.cons_append, List.append_assoc,
        List.nil_append]
      rw [parseStrBody.eq_def]
      have h1 : ('\\' : Char) ≠ '"' := by decide
      simp only [if_neg h1, if_pos rfl, List.cons_append]
      simp [hc, ih]
    · push_neg at hc
      obtain ⟨hc1, hc2⟩ := hc
      simp only [escapeL, escapeChar, List.cons_append]
      rw [if_neg (by tauto)]
      simp only [List.cons_append, List.nil_append]
      rw [parseStrBody.eq_def]
      simp [hc1, hc2, ih]

theorem stringifyL_head (v : JSValue) (hv : noNum v = true) :
    ∃ c cs, stringifyL v = c :: cs ∧ c ≠ ']' := by
  cases v with
  | null => exact ⟨'n', _, rfl, by decide⟩
  | bool b =>
    cases b with
    | false => exact ⟨'f', _, rfl, by decide⟩
    | true => exact ⟨'t', _, rfl, by decide⟩
  | num n => simp [noNum] at hv
  | str s => exact ⟨'"', _, rfl, by decide⟩
  | arr xs => exact ⟨'[', _, rfl, by decide⟩
  | obj kvs => exact ⟨'{', _, rfl, by decide⟩

theorem stringifyL_length_pos (v : JSValue) (hv : noNum v = true) :
    1 ≤ (stringifyL v).length := by
  obtain ⟨c, cs, heq, _⟩ := stringifyL_head v hv
  simp [heq]

theorem quoteL_length (s : String) : 2 ≤ (quoteL s).length := by
  simp [quoteL]

theorem strMk_data (s : String) : String.mk s.data = s := by
  cases s
  rfl

theorem parse_stringify (f : Nat) :
    (∀ v rest, noNum v = true → (stringifyL v).length < f →
      parseVal f (stringifyL v ++ rest) = some (v, rest)) ∧
    (∀ xs rest, noNumItems xs = true → (stringifyItems xs).length + 1 < f →
      parseItems f (stringifyItems xs ++ ']' :: rest) = some (xs, rest)) ∧
    (∀ kvs rest, noNumMembers kvs = true → (stringifyMembers kvs).length + 1 < f →
      parseMembers f (stringifyMembers kvs ++ '}' :: rest) = some (kvs, rest)) := by
  induction f using Nat.strong_induction_on with
  | _ f IH =>
  cases f with
  | zero =>
    refine ⟨?_, ?_, ?_⟩ <;> (intro a b c d; omega)
  | succ f' =>
    refine ⟨?_, ?_, ?_⟩
    · intro v rest hnn hlen
      cases v with
      | null =>
        simp only [stringifyL, List.cons_append, List.nil_append]
        simp only [parseVal]
        simp
      | bool b =>
        cases b with
        | true =>
          simp only [stringifyL, List.cons_append, List.nil_append]
          simp only [parseVal]
          simp
        | false =>
          simp only [stringifyL, List.cons_append, List.nil_append]
          simp only [parseVal]
          simp
      | num n => simp [noNum] at hnn
      | str s =>
        simp only [stringifyL, quoteL, List.cons_append, List.append_assoc, List.nil_append]
        simp only [parseVal]
        rw [parseStrBody_escapeL]
        simp [strMk_data]
      | arr xs =>
        have hnni : noNumItems xs = true := by
          revert hnn; simp [noNum]
        have hlen' : (stringifyItems xs).length + 1 < f' := by
          simp only [stringifyL, List.length_cons, List.length_append,
            List.length_singleton] at hlen
          omega
        have h2 := (IH f' (Nat.lt_succ_self f')).2.1 xs rest hnni hlen'
        simp only [stringifyL, List.cons_append, List.append_assoc, List.singleton_append,
          List.nil_append]
        simp only [parseVal]
        rw [h2]
        simp
      | obj kvs =>
        have hnnm : noNumMembers kvs = true := by
          revert hnn; simp [noNum]
        have hlen' : (stringifyMembers kvs).length + 1 < f' := by
          simp only [stringifyL, List.length_cons, List.length_append,
            List.length_singleton] at hlen
          omega
        have h2 := (IH f' (Nat.lt_succ_self f')).2.2 kvs rest hnnm hlen'
        simp only [stringifyL, List.cons_append, List.append_assoc, List.singleton_append,
          List.nil_append]
        simp only [parseVal]
        rw [h2]
        simp
    · intro xs rest hnn hlen
      cases xs with
      | nil =>
        simp only [stringifyItems, List.nil_append]
        simp only [parseItems]
        simp
      | cons x xs' =>
        have hx1 : noNum x = true := by
          revert hnn; simp [noNumItems, Bool.and_eq_true]; tauto
        have hx2 : noNumItems xs' = true := by
          revert hnn; simp [noNumItems, Bool.and_eq_true]
        obtain ⟨c, cs, hhead, hcne⟩ := stringifyL_head x hx1
        have hlenx := stringifyL_length_pos x hx1
        cases xs' with
        | nil =>
          simp only [stringifyItems] at hlen ⊢
          have hshape : stringifyL x ++ ']' :: rest = c :: (cs ++ ']' :: rest) := by
            rw [hhead, List.cons_append]
          rw [hshape]
          simp only [parseItems]
          rw [if_neg hcne]
          rw [← hshape]
          have h1 := (IH f' (Nat.lt_succ_self f')).1 x (']' :: rest) hx1 (by omega)
          rw [h1]
          simp
        | cons y ys =>
          simp only [stringifyItems] at hlen ⊢
          simp only [List.length_append, List.length_cons] at hlen
          have hshape : (stringifyL x ++ ',' :: stringifyItems (y :: ys)) ++ ']' :: rest
              = c :: (cs ++ ',' :: (stringifyItems (y :: ys) ++ ']' :: rest)) := by
            rw [hhead]
            simp [List.append_assoc]
          rw [hshape]
          simp only [parseItems]
          rw [if_neg hcne]
          have hshape2 : c :: (cs ++ ',' :: (stringifyItems (y :: ys) ++ ']' :: rest))
              = stringifyL x ++ (',' :: (stringifyItems (y :: ys) ++ ']' :: rest)) := by
            rw [hhead, List.cons_append]
          rw [hshape2]
          have h1 := (IH f' (Nat.lt_succ_self f')).1 x
            (',' :: (stringifyItems (y :: ys) ++ ']' :: rest)) hx1 (by omega)
          rw [h1]
          have h2 := (IH f' (Nat.lt_succ_self f')).2.1 (y :: ys) rest hx2 (by omega)
          simp only [h2]
          simp
    · intro kvs rest hnn hlen
      cases kvs with
      | nil =>
        simp only [stringifyMembers, List.nil_append]
        simp only [parseMembers]
        simp
      | cons kv kvs' =>
        obtain ⟨k, v⟩ := kv
        have hv1 : noNum v = true := by
          revert hnn; simp [noNumMembers, Bool.and_eq_true]; tauto
        have hv2 : noNumMembers kvs' = true := by
          revert hnn; simp [noNumMembers, Bool.and_eq_true]
        have hlenv := stringifyL_length_pos v hv1
        have hlenq := quoteL_length k
        cases kvs' with
        | nil =>
          simp only [stringifyMembers] at hlen ⊢
          simp only [List.length_append, List.length_cons] at hlen
          have hshape : (quoteL k ++ ':' :: stringifyL v) ++ '}' :: rest
              = '"' :: (escapeL k.data ++ '"' :: (':' :: (stringifyL v ++ '}' :: rest))) := by
            simp [quoteL, List.append_assoc]
          rw [hshape]
          simp only [parseMembers]
          rw [parseStrBody_escapeL]
          have h1 := (IH f' (Nat.lt_succ_self f')).1 v ('}' :: rest) hv1 (by
            simp only [quoteL, List.length_cons, List.length_append,
              List.length_singleton] at hlenq hlen
            omega)
          simp only [h1, strMk_data]
          simp
        | cons kv2 kvs2 =>
          simp only [stringifyMembers] at hlen ⊢
          simp only [List.length_append, List.length_cons] at hlen
          have hshape : (quoteL k ++ ':' :: stringifyL v ++ ',' :: stringifyMembers (kv2 :: kvs2)) ++ '}' :: rest
              = '"' :: (escapeL k.data ++ '"' :: (':' :: (stringifyL v ++ ',' :: (stringifyMembers (kv2 :: kvs2) ++ '}' :: rest)))) := by
            simp [quoteL, List.append_assoc]
          rw [hshape]
          simp only [parseMembers]
          rw [parseStrBody_escapeL]
          have h1 := (IH f' (Nat.lt_succ_self f')).1 v
            (',' :: (stringifyMembers (kv2 :: kvs2) ++ '}' :: rest)) hv1 (by
              simp only [quoteL, List.length_cons, List.length_append,
                List.length_singleton] at hlenq hlen
              omega)
          simp only [h1, strMk_data]
          have h2 := (IH f' (Nat.lt_succ_self f')).2.2 (kv2 :: kvs2) rest hv2 (by
            simp only [quoteL, List.length_cons, List.length_append,
              List.length_singleton] at hlenq hlen
            omega)
          simp only [h2]
          simp

/-- The parser model undoes the serializer model on every number-free
value. -/
theorem parseJSON_stringify (v : JSValue) (hv : noNum v = true) :
    parseJSON (jsonStringify v) = some v := by
  have h := (parse_stringify ((stringifyL v).length + 1)).1 v [] hv (by omega)
  rw [List.append_nil] at h
  simp only [parseJSON, jsonStringify]
  rw [h]

/-! ## Structured daily entries

The DailyEntry value object of the data model (App.js `getEmptyEntry`,
lines 803-809): three fixed sub-records of free-text strings and checklist
booleans.  `toJS` is its JavaScript object form, the shape `saveCurrent`
persists. -/

/-- Morning sub-record: the gratitude list. -/
structure MorningData where
  gratitude : List String

/-- Midday sub-record: the caught checklist and the reframe note. -/
structure MiddayData where
  caught : List Bool
  reframe : String

/-- Night sub-record: the three reflection fields. -/
structure NightData where
  wentWell : String
  handled : String
  improve : String

/-- One day's structured entry. -/
structure DailyEntry where
  morning : MorningData
  midday : MiddayData
  night : NightData

/-- JavaScript object form of a morning sub-record. -/
def MorningData.toJS (m : MorningData) : JSValue :=
  .obj [("gratitude", .arr (m.gratitude.map JSValue.str))]

/-- JavaScript object form of a midday sub-record. -/
def MiddayData.toJS (m : MiddayData) : JSValue :=
  .obj [("caught", .arr (m.caught.map JSValue.bool)), ("reframe", .str m.reframe)]

/-- JavaScript object form of a night sub-record. -/
def NightData.toJS (n : NightData) : JSValue :=
  .obj [("wentWell", .str n.wentWell), ("handled", .str n.handled),
    ("improve", .str n.improve)]

/-- JavaScript object form of a daily entry. -/
def DailyEntry.toJS (e : DailyEntry) : JSValue :=
  .obj [("morning", e.morning.toJS), ("midday", e.midday.toJS), ("night", e.night.toJS)]

/-- The default empty entry, `getEmptyEntry` (App.js lines 803-809). -/
def getEmptyEntry : DailyEntry :=
  { morning := { gratitude := ["", "", ""] }
    midday := { caught := [false, false, false], reframe := "" }
    night := { wentWell := "", handled := "", improve := "" } }

/-- Arrays of strings contain no numbers. -/
theorem noNumItems_map_str (g : List String) :
    noNumItems (g.map JSValue.str) = true := by
  induction g with
  | nil => rfl
  | cons a g ih => simp [noNumItems, noNum, ih]

/-- Arrays of booleans contain no numbers. -/
theorem noNumItems_map_bool (c : List Bool) :
    noNumItems (c.map JSValue.bool) = true := by
  induction c with
  | nil => rfl
  | cons a c ih => simp [noNumItems, noNum, ih]

/-- Serialized daily entries contain no numbers. -/
theorem noNum_toJS (e : DailyEntry) : noNum (DailyEntry.toJS e) = true := by
  obtain ⟨⟨g⟩, ⟨c, r⟩, ⟨w, h, i⟩⟩ := e
  simp [DailyEntry.toJS, MorningData.toJS, MiddayData.toJS, NightData.toJS,
    noNum, noNumItems, noNumMembers, noNumItems_map_str, noNumItems_map_bool]

/-- Collections of serialized daily entries contain no numbers. -/
theorem noNumMembers_entryMap (C : List (String × DailyEntry)) :
    noNumMembers (C.map (fun ke => (ke.1, DailyEntry.toJS ke.2))) = true := by
  induction C with
  | nil => rfl
  | cons ke C ih => simp [noNumMembers, noNum_toJS, ih]

/-! ## The persistence pipeline for the round-trip property -/

/-- Upserting a fresh key appends its binding at the end. -/
theorem objUpsert_append (kvs : List (String × JSValue)) (k : String) (v : JSValue)
    (h : ∀ kv ∈ kvs, kv.1 ≠ k) : objUpsert kvs k v = kvs ++ [(k, v)] := by
  rw [objUpsert, if_neg]
  simp only [List.any_eq_true, beq_iff_eq, not_exists, not_and]
  intro kv hkv
  exact h kv hkv

/-- Starting from an empty in-memory collection and an empty backend,
`saveCurrent` each key of `C` in turn with all writes succeeding: the state
after the whole upsert sequence. -/
def upsertAll (C : List (String × DailyEntry)) : SaveOutcome :=
  C.foldl
    (fun acc ke => saveCurrent acc.entries ke.1 (DailyEntry.toJS ke.2) acc.store false)
    { entries := [], store := { blob := none }, alerted := false }

/-- Unfolding of the `saveCurrent` fold: with pairwise-fresh keys the
collection accumulates the bindings in order, and the backend blob is the
serialization of the final collection (or the initial blob when nothing was
saved). -/
theorem saveCurrent_foldl (C : List (String × DailyEntry)) :
    ∀ (acc : List (String × JSValue)) (st : StoreState) (al : Bool),
      (∀ ke ∈ C, ∀ kv ∈ acc, kv.1 ≠ ke.1) → (C.map Prod.fst).Nodup →
      C.foldl (fun a ke => saveCurrent a.entries ke.1 (DailyEntry.toJS ke.2) a.store false)
        { entries := acc, store := st, alerted := al }
      = { entries := acc ++ C.map (fun ke => (ke.1, DailyEntry.toJS ke.2)),
          store := if C.isEmpty then st else
            { blob := some (jsonStringify
                (.obj (acc ++ C.map (fun ke => (ke.1, DailyEntry.toJS ke.2))))) },
          alerted := if C.isEmpty then al else false } := by
  induction C with
  | nil =>
    intro acc st al h1 h2
    simp
  | cons ke C ih =>
    intro acc st al h1 h2
    obtain ⟨k, e⟩ := ke
    have hfresh : ∀ kv ∈ acc, kv.1 ≠ k := by
      intro kv hkv
      exact h1 (k, e) (List.mem_cons_self _ _) kv hkv
    have hstep : saveCurrent acc k (DailyEntry.toJS e) st false
        = { entries := acc ++ [(k, DailyEntry.toJS e)],
            store := { blob := some (jsonStringify (.obj (acc ++ [(k, DailyEntry.toJS e)]))) },
            alerted := false } := by
      simp [saveCurrent, asyncSetItem, objUpsert_append acc k _ hfresh]
    simp only [List.foldl_cons, hstep]
    rw [List.map_cons, List.nodup_cons] at h2
    obtain ⟨hknotin, hnodup⟩ := h2
    have h1' : ∀ ke2 ∈ C, ∀ kv ∈ acc ++ [(k, DailyEntry.toJS e)], kv.1 ≠ ke2.1 := by
      intro ke2 hke2 kv hkv
      rcases List.mem_append.mp hkv with hkv | hkv
      · exact h1 ke2 (List.mem_cons_of_mem _ hke2) kv hkv
      · have hkveq : kv = (k, DailyEntry.toJS e) := by simpa using hkv
        subst hkveq
        intro hcontra
        exact hknotin (by
          rw [show k = ke2.1 from hcontra]
          exact List.mem_map.mpr ⟨ke2, hke2, rfl⟩)
    have := ih (acc ++ [(k, DailyEntry.toJS e)])
      { blob := some (jsonStringify (.obj (acc ++ [(k, DailyEntry.toJS e)]))) } false h1' hnodup
    rw [this]
    cases C with
    | nil => simp
    | cons ke2 C2 => simp

/-- A serialized object is never the empty string. -/
theorem jsonStringify_obj_ne_empty (M : List (String × JSValue)) :
    jsonStringify (.obj M) ≠ "" := by
  intro h
  have hdata : (jsonStringify (.obj M)).data = ("" : String).data := by rw [h]
  simp only [jsonStringify] at hdata
  rw [show stringifyL (.obj M) = '{' :: (stringifyMembers M ++ ['}']) by
    simp [stringifyL]] at hdata
  cases hdata

/-- The collection obtained by `loadEntries` from the backend after the
whole upsert sequence of `upsertAll`. -/
def loadAfterUpserts (C : List (String × DailyEntry)) : JSValue :=
  loadEntries (.ok (upsertAll C).store.blob)

/-! ## Ordering facts about the date windows -/

/-- The ascending key list is sorted. -/
theorem sortedKeysAsc_sorted (entries : List (String × JSValue)) :
    List.Sorted (fun a b : String => a ≤ b) (sortedKeysAsc entries) :=
  List.sorted_insertionSort _ _

/-- The ascending key list is a permutation of the key list. -/
theorem sortedKeysAsc_perm (entries : List (String × JSValue)) :
    (sortedKeysAsc entries).Perm (entries.map (fun kv => kv.1)) :=
  List.perm_insertionSort _ _

/-- Sorting keeps keys duplicate-free. -/
theorem sortedKeysAsc_nodup (entries : List (String × JSValue))
    (h : (entries.map (fun kv => kv.1)).Nodup) : (sortedKeysAsc entries).Nodup :=
  ((sortedKeysAsc_perm entries).nodup_iff).mpr h

/-- A sorted duplicate-free string list is strictly increasing. -/
theorem pairwise_lt_of_sorted_nodup {l : List String}
    (hs : List.Sorted (fun a b : String => a ≤ b) l) (hn : l.Nodup) :
    List.Pairwise (fun a b : String => a < b) l :=
  (List.Pairwise.and hs hn).imp (fun h => lt_of_le_of_ne h.1 h.2)

/-- The ascending key list is strictly increasing when keys are unique. -/
theorem sortedKeysAsc_strict (entries : List (String × JSValue))
    (h : (entries.map (fun kv => kv.1)).Nodup) :
    List.Pairwise (fun a b : String => a < b) (sortedKeysAsc entries) :=
  pairwise_lt_of_sorted_nodup (sortedKeysAsc_sorted entries) (sortedKeysAsc_nodup entries h)

/-- The descending key list is strictly decreasing when keys are unique. -/
theorem sortedKeysDesc_strict (entries : List (String × JSValue))
    (h : (entries.map (fun kv => kv.1)).Nodup) :
    List.Pairwise (fun a b : String => b < a) (sortedKeysDesc entries) := by
  rw [sortedKeysDesc, List.pairwise_reverse]
  exact sortedKeysAsc_strict entries h

/-- The dates of the history summary are the first seven descending keys. -/
theorem historyArray_keys (entries : List (String × JSValue)) :
    (historyArray entries).map (fun kv => kv.1) = (sortedKeysDesc entries).take 7 := by
  rw [historyArray, List.map_map]
  have hcomp : ((fun kv : String × JSValue => kv.1) ∘ fun k => (k, objGet (.obj entries) k))
      = id := rfl
  rw [hcomp, List.map_id]

/-! ## Well-formed entry values

The aggregation claims quantify over collections whose values are daily
entries with possibly missing or malformed sub-records.  The predicates
below say exactly that: wherever a code path would reach `.trim()` on a
value or read `caught` flags, that value is a string (resp. boolean) or
falsy, and arrays that pass the `Array.isArray` guards have the data
model's at-most-three slots.  Outside these shapes `g.trim()` would throw
in JavaScript, which a total model cannot mirror, so the theorems assume
them. -/

/-- Values that are strings or falsy: `v && v.trim()` evaluates without
throwing exactly on these. -/
def strOrFalsy (v : JSValue) : Bool :=
  match v with
  | .str _ => true
  | v => !jsTruthy v

/-- Values that are booleans or falsy. -/
def boolOrFalsy (v : JSValue) : Bool :=
  match v with
  | .bool _ => true
  | v => !jsTruthy v

/-- Well-formedness of the morning part of an entry value. -/
def wfMorning (v : JSValue) : Bool :=
  if jsTruthy (objGet v "morning") then
    match objGet (objGet v "morning") "gratitude" with
    | .arr gs => decide (gs.length ≤ 3) && gs.all strOrFalsy
    | _ => true
  else true

/-- Well-formedness of the midday part of an entry value. -/
def wfMidday (v : JSValue) : Bool :=
  if jsTruthy (objGet v "midday") then
    match objGet (objGet v "midday") "caught" with
    | .arr fs => decide (fs.length ≤ 3) && fs.all boolOrFalsy
    | _ => true
  else true

/-- Well-formedness of the night part of an entry value. -/
def wfNight (v : JSValue) : Bool :=
  strOrFalsy (objGet (objGet v "night") "wentWell") &&
  strOrFalsy (objGet (objGet v "night") "handled") &&
  strOrFalsy (objGet (objGet v "night") "improve")

/-- Well-formed entry value: every sub-record may be absent or malformed,
but data reachable through the guards has the data model's shape. -/
def wfEntryJS (v : JSValue) : Bool :=
  wfMorning v && wfMidday v && wfNight v

/-- Well-formed collection: every stored value is a well-formed entry. -/
def wfCollection (entries : List (String × JSValue)) : Bool :=
  entries.all (fun kv => wfEntryJS kv.2)

/-- The gratitude chart count never exceeds three on a well-formed entry. -/
theorem gratitudeCountOf_le (e : JSValue) (h : wfMorning e = true) :
    gratitudeCountOf e ≤ 3 := by
  rw [gratitudeCountOf]
  rw [wfMorning] at h
  by_cases hm : jsTruthy (objGet e "morning") = true
  · rw [if_pos hm] at h ⊢
    cases hg : objGet (objGet e "morning") "gratitude" with
    | arr gs =>
      rw [hg] at h
      have hlen : gs.length ≤ 3 := by
        have := (Bool.and_eq_true _ _).mp h
        simpa using this.1
      show (gs.filter chartFilled).length ≤ 3
      calc (gs.filter chartFilled).length ≤ gs.length := List.length_filter_le _ _
        _ ≤ 3 := hlen
    | null => show 0 ≤ 3; omega
    | bool b => show 0 ≤ 3; omega
    | num n => show 0 ≤ 3; omega
    | str s => show 0 ≤ 3; omega
    | obj kvs => show 0 ≤ 3; omega
  · rw [if_neg hm]
    omega

/-- The night chart count never exceeds three. -/
theorem nightCountOf_le (e : JSValue) : nightCountOf e ≤ 3 := by
  rw [nightCountOf]
  split
  · split <;> split <;> split <;> omega
  · omega

/-- Rounded completion percentages stay within 100. -/
theorem jsRound6_le (c : Nat) (h : c ≤ 6) : jsRound (100 * c) 6 ≤ 100 := by
  interval_cases c <;> decide

/-- Rounded gratitude percentages stay within 100. -/
theorem jsRound3_le (c : Nat) (h : c ≤ 3) : jsRound (100 * c) 3 ≤ 100 := by
  interval_cases c <;> decide

/-- A value found in a collection by key is one of its stored values. -/
theorem objGet_mem (entries : List (String × JSValue)) (d : String) (v : JSValue)
    (h : objGet (.obj entries) d = v) (hv : jsTruthy v = true) :
    ∃ kv ∈ entries, kv.2 = v := by
  rw [objGet] at h
  cases hf : entries.find? (fun kv => kv.1 == d) with
  | some kv =>
    rw [hf] at h
    exact ⟨kv, List.mem_of_find?_eq_some hf, h⟩
  | none =>
    rw [hf] at h
    subst h
    simp [jsTruthy] at hv

/-- The entry consulted for any chart date of a well-formed collection is
itself well-formed (the `entries[date] || {}` fallback is the empty object,
which is well-formed). -/
theorem chartEntryFor_wf (entries : List (String × JSValue)) (d : String)
    (h : wfCollection entries = true) : wfEntryJS (chartEntryFor entries d) = true := by
  rw [chartEntryFor]
  by_cases ht : jsTruthy (objGet (.obj entries) d) = true
  · rw [if_pos ht]
    obtain ⟨kv, hmem, hkv⟩ := objGet_mem entries d _ rfl ht
    rw [wfCollection, List.all_eq_true] at h
    rw [← hkv]
    exact h kv hmem
  · rw [if_neg ht]
    rfl

/-! ## Algebra of `objUpsert` -/

/-- A boolean that is not true is false. -/
theorem bool_eq_false {b : Bool} (h : ¬ b = true) : b = false := by
  cases b with
  | false => rfl
  | true => exact absurd rfl h

/-- After an upsert the key is present. -/
theorem objUpsert_any (c : List (String × JSValue)) (k : String) (e : JSValue) :
    (objUpsert c k e).any (fun kv => kv.1 == k) = true := by
  rw [objUpsert]
  by_cases h : c.any (fun kv => kv.1 == k) = true
  · rw [if_pos h]
    rw [List.any_eq_true] at h ⊢
    obtain ⟨kv, hkv, hk⟩ := h
    refine ⟨(k, e), List.mem_map.mpr ⟨kv, hkv, by rw [if_pos hk]⟩, by simp⟩
  · rw [if_neg h]
    rw [List.any_eq_true]
    exact ⟨(k, e), List.mem_append_right _ (List.mem_singleton.mpr rfl), by simp⟩

/-- Replacing the binding of a key that is absent changes nothing. -/
theorem map_replace_of_not_any (c : List (String × JSValue)) (k : String) (e : JSValue)
    (h : c.any (fun kv => kv.1 == k) = false) :
    (c.map fun kv => if kv.1 == k then (k, e) else kv) = c := by
  have h2 : ∀ kv ∈ c, (kv.1 == k) = false := by
    intro kv hkv
    by_contra hcon
    rw [List.any_eq_false] at h
    exact h kv hkv (by simpa using hcon)
  calc (c.map fun kv => if kv.1 == k then (k, e) else kv)
      = c.map (fun kv => kv) := by
        apply List.map_congr_left
        intro kv hkv
        rw [if_neg (by simp [h2 kv hkv])]
    _ = c := List.map_id' c

/-- Upserting the same binding twice equals upserting it once. -/
theorem objUpsert_idem (c : List (String × JSValue)) (k : String) (e : JSValue) :
    objUpsert (objUpsert c k e) k e = objUpsert c k e := by
  have hany := objUpsert_any c k e
  conv_lhs => rw [objUpsert]
  rw [if_pos hany]
  rw [objUpsert]
  by_cases h : c.any (fun kv => kv.1 == k) = true
  · rw [if_pos h, List.map_map]
    apply List.map_congr_left
    intro kv _
    by_cases hk : (kv.1 == k) = true
    · simp only [Function.comp]
      rw [if_pos hk]
      rw [if_pos (by simp)]
    · simp only [Function.comp]
      rw [if_neg (by simp [hk]), if_neg (by simp [hk])]
  · rw [if_neg h, List.map_append]
    rw [map_replace_of_not_any c k e (bool_eq_false h)]
    simp

/-- A key list without duplicates holds the key at most once; if the key is
present it is held exactly once. -/
theorem countP_key_eq_one (c : List (String × JSValue)) (k : String)
    (hnodup : (c.map (fun kv => kv.1)).Nodup)
    (hmem : c.any (fun kv => kv.1 == k) = true) :
    c.countP (fun kv => kv.1 == k) = 1 := by
  induction c with
  | nil => simp at hmem
  | cons kv c ih =>
    rw [List.map_cons, List.nodup_cons] at hnodup
    rw [List.countP_cons]
    by_cases hk : (kv.1 == k) = true
    · have hzero : List.countP (fun kv : String × JSValue => kv.1 == k) c = 0 := by
        rw [List.countP_eq_zero]
        intro kv2 hkv2 hcon
        apply hnodup.1
        have hx : kv2.1 = k := by simpa using hcon
        have hy : kv.1 = k := by simpa using hk
        rw [hy, ← hx]
        exact List.mem_map.mpr ⟨kv2, hkv2, rfl⟩
      rw [hzero]
      simp [hk]
    · have hmem2 : c.any (fun kv => kv.1 == k) = true := by
        rw [List.any_cons] at hmem
        rcases Bool.or_eq_true_iff.mp hmem with h1 | h1
        · exact absurd h1 hk
        · exact h1
      rw [ih hnodup.2 hmem2]
      simp [hk]

/-- An upserted collection holds exactly one binding for the key when the
input keys are unique. -/
theorem objUpsert_countP (c : List (String × JSValue)) (k : String) (e : JSValue)
    (hnodup : (c.map (fun kv => kv.1)).Nodup) :
    (objUpsert c k e).countP (fun kv => kv.1 == k) = 1 := by
  rw [objUpsert]
  by_cases h : c.any (fun kv => kv.1 == k) = true
  · rw [if_pos h]
    rw [List.countP_map]
    have hcongr : List.countP ((fun kv : String × JSValue => kv.1 == k) ∘
        fun kv => if kv.1 == k then (k, e) else kv) c
        = List.countP (fun kv : String × JSValue => kv.1 == k) c := by
      apply List.countP_congr
      intro kv _
      by_cases hk : (kv.1 == k) = true
      · simp only [Function.comp]
        rw [if_pos hk]
        simp [hk]
      · simp only [Function.comp]
        rw [if_neg (by simp [hk])]
    rw [hcongr]
    exact countP_key_eq_one c k hnodup h
  · rw [if_neg h]
    rw [List.countP_append]
    have h0 : List.countP (fun kv : String × JSValue => kv.1 == k) c = 0 := by
      rw [List.countP_eq_zero]
      intro kv hkv hcon
      have hfalse := bool_eq_false h
      rw [List.any_eq_false] at hfalse
      exact hfalse kv hkv hcon
    rw [h0]
    simp

/-- Looking up the key after an upsert returns the new value. -/
theorem objGet_objUpsert (c : List (String × JSValue)) (k : String) (e : JSValue) :
    objGet (.obj (objUpsert c k e)) k = e := by
  rw [objUpsert, objGet]
  by_cases h : c.any (fun kv => kv.1 == k) = true
  · rw [if_pos h]
    induction c with
    | nil => simp at h
    | cons kv c ih =>
      by_cases hk : (kv.1 == k) = true
      · rw [List.map_cons, if_pos hk]
        rw [List.find?_cons_of_pos _ (by simp)]
      · rw [List.map_cons, if_neg (by simp [hk])]
        rw [List.find?_cons_of_neg _ (by simpa using hk)]
        apply ih
        rw [List.any_cons] at h
        rcases Bool.or_eq_true_iff.mp h with h1 | h1
        · exact absurd h1 hk
        · exact h1
  · rw [if_neg h]
    rw [List.find?_append]
    have hnone : c.find? (fun kv => kv.1 == k) = none := by
      rw [List.find?_eq_none]
      intro kv hkv hcon
      have hfalse := bool_eq_false h
      rw [List.any_eq_false] at hfalse
      exact hfalse kv hkv hcon
    rw [hnone]
    simp [List.find?]

/-! ## Characterizations of the aggregation counts -/

/-- Spec-side reading of "the Complaining flag is set": the first element
of `midday.caught` is the boolean `true`. -/
def caughtHeadIsTrue (e : JSValue) : Bool :=
  match objGet (objGet e "midday") "caught" with
  | .arr (.bool true :: _) => true
  | _ => false

/-- Reading a property of a falsy value gives `null` (`undefined`): falsy
values are never objects. -/
theorem objGet_of_falsy (v : JSValue) (k : String) (h : jsTruthy v = false) :
    objGet v k = .null := by
  cases v with
  | obj kvs => simp [jsTruthy] at h
  | null => rfl
  | bool b => rfl
  | num n => rfl
  | str s => rfl
  | arr xs => rfl

/-- On well-formed midday data the code's truthiness test of `caught[0]`
agrees with "the first caught flag is the boolean true". -/
theorem complainedOf_eq_head (e : JSValue) (h : wfMidday e = true) :
    complainedOf e = caughtHeadIsTrue e := by
  rw [complainedOf, caughtHeadIsTrue, wfMidday] at *
  by_cases hm : jsTruthy (objGet e "midday") = true
  · rw [if_pos hm] at h ⊢
    cases hc : objGet (objGet e "midday") "caught" with
    | arr fs =>
      rw [hc] at h
      cases fs with
      | nil => rfl
      | cons g0 fs =>
        have hg0 : boolOrFalsy g0 = true := by
          have := (Bool.and_eq_true _ _).mp h
          have hall := List.all_eq_true.mp this.2
          exact hall g0 (List.mem_cons_self _ _)
        cases g0 with
        | bool b => cases b <;> rfl
        | null => rfl
        | num n =>
          rw [boolOrFalsy] at hg0
          simp [jsTruthy] at hg0
          simp [jsTruthy, hg0]
          exact fun a ha => JSValue.noConfusion ha
        | str s =>
          rw [boolOrFalsy] at hg0
          simp [jsTruthy] at hg0
          simp [jsTruthy, hg0]
          exact fun a ha => JSValue.noConfusion ha
        | arr xs => simp [boolOrFalsy, jsTruthy] at hg0
        | obj kvs => simp [boolOrFalsy, jsTruthy] at hg0
    | null => rfl
    | bool b => rfl
    | num n => rfl
    | str s => rfl
    | obj kvs => rfl
  · rw [if_neg hm]
    rw [objGet_of_falsy _ _ (bool_eq_false hm)]

/-- Entries with no `midday.caught` array never register a complaint. -/
theorem complaintPercent_no_array (e : JSValue)
    (h : ∀ fs, objGet (objGet e "midday") "caught" ≠ .arr fs) :
    complaintPercent e = 0 := by
  rw [complaintPercent, complainedOf]
  by_cases hm : jsTruthy (objGet e "midday") = true
  · rw [if_pos hm]
    cases hc : objGet (objGet e "midday") "caught" with
    | arr fs => exact absurd hc (h fs)
    | null => rfl
    | bool b => rfl
    | num n => rfl
    | str s => rfl
    | obj kvs => rfl
  · rw [if_neg hm]
    rfl

/-- The complaint percentage is always exactly 0 or 100. -/
theorem complaintPercent_binary (e : JSValue) :
    complaintPercent e = 0 ∨ complaintPercent e = 100 := by
  rw [complaintPercent]
  by_cases h : complainedOf e = true
  · rw [if_pos h]
    right
    rfl
  · rw [if_neg h]
    left
    rfl

/-- Spec-side test of a non-empty string value. -/
def isNonemptyStr (v : JSValue) : Bool :=
  match v with
  | .str s => s != ""
  | _ => false

/-- Spec-side test of the boolean `true`. -/
def isTrueBool (v : JSValue) : Bool :=
  match v with
  | .bool true => true
  | _ => false

/-- Spec-side count of non-empty strings among array elements. -/
def countNonemptyStr (gs : List JSValue) : Nat :=
  (gs.filter isNonemptyStr).length

/-- Spec-side count of elements that are the boolean `true`. -/
def countTrueBool (fs : List JSValue) : Nat :=
  (fs.filter isTrueBool).length

/-- On strings-or-falsy values truthiness means being a non-empty string. -/
theorem jsTruthy_eq_isNonemptyStr (v : JSValue) (h : strOrFalsy v = true) :
    jsTruthy v = isNonemptyStr v := by
  cases v with
  | str s => rfl
  | null => rfl
  | bool b =>
    rw [strOrFalsy] at h
    simp [jsTruthy] at h
    simp [jsTruthy, isNonemptyStr, h]
    exact fun s hs => JSValue.noConfusion hs
  | num n =>
    rw [strOrFalsy] at h
    simp [jsTruthy] at h
    simp [jsTruthy, isNonemptyStr, h]
    exact fun s hs => JSValue.noConfusion hs
  | arr xs => simp [strOrFalsy, jsTruthy] at h
  | obj kvs => simp [strOrFalsy, jsTruthy] at h

/-- On booleans-or-falsy values truthiness means being the boolean true. -/
theorem jsTruthy_eq_isTrueBool (v : JSValue) (h : boolOrFalsy v = true) :
    jsTruthy v = isTrueBool v := by
  cases v with
  | bool b => cases b <;> rfl
  | null => rfl
  | str s =>
    rw [boolOrFalsy] at h
    simp [jsTruthy] at h
    simp [jsTruthy, isTrueBool, h]
    exact fun a ha => JSValue.noConfusion ha
  | num n =>
    rw [boolOrFalsy] at h
    simp [jsTruthy] at h
    simp [jsTruthy, isTrueBool, h]
    exact fun a ha => JSValue.noConfusion ha
  | arr xs => simp [boolOrFalsy, jsTruthy] at h
  | obj kvs => simp [boolOrFalsy, jsTruthy] at h

/-- Filtering a three-element list by truthiness counts the truthy slots. -/
theorem filter3_truthy_length (a b c : JSValue) :
    (([a, b, c].filter truthyFilled).length)
      = (if jsTruthy a then 1 else 0) + (if jsTruthy b then 1 else 0)
        + (if jsTruthy c then 1 else 0) := by
  cases ha : jsTruthy a <;> cases hb : jsTruthy b <;> cases hc : jsTruthy c <;>
    simp [List.filter, truthyFilled, ha, hb, hc]

/-- On a well-formed entry value, the history summary counts are exactly
the number of non-empty gratitude strings, the number of caught flags that
are the boolean true, and the number of non-empty night fields; a missing
or malformed sub-record contributes a zero count. -/
theorem renderHistoryItemCounts_spec (v : JSValue) (hv : wfEntryJS v = true) :
    (renderHistoryItemCounts v).1 =
      (if jsTruthy (objGet v "morning") then
        match objGet (objGet v "morning") "gratitude" with
        | .arr gs => countNonemptyStr gs
        | _ => 0
      else 0) ∧
    (renderHistoryItemCounts v).2.1 =
      (if jsTruthy (objGet v "midday") then
        match objGet (objGet v "midday") "caught" with
        | .arr fs => countTrueBool fs
        | _ => 0
      else 0) ∧
    (renderHistoryItemCounts v).2.2 =
      (if isNonemptyStr (objGet (objGet v "night") "wentWell") then 1 else 0) +
      (if isNonemptyStr (objGet (objGet v "night") "handled") then 1 else 0) +
      (if isNonemptyStr (objGet (objGet v "night") "improve") then 1 else 0) := by
  rw [wfEntryJS] at hv
  obtain ⟨⟨hm, hmid⟩, hn⟩ : (wfMorning v = true ∧ wfMidday v = true) ∧ wfNight v = true := by
    constructor
    · constructor
      · exact ((Bool.and_eq_true _ _).mp ((Bool.and_eq_true _ _).mp hv).1).1
      · exact ((Bool.and_eq_true _ _).mp ((Bool.and_eq_true _ _).mp hv).1).2
    · exact ((Bool.and_eq_true _ _).mp hv).2
  obtain ⟨hn1, hn2, hn3⟩ : strOrFalsy (objGet (objGet v "night") "wentWell") = true ∧
      strOrFalsy (objGet (objGet v "night") "handled") = true ∧
      strOrFalsy (objGet (objGet v "night") "improve") = true := by
    rw [wfNight] at hn
    exact ⟨((Bool.and_eq_true _ _).mp ((Bool.and_eq_true _ _).mp hn).1).1,
      ((Bool.and_eq_true _ _).mp ((Bool.and_eq_true _ _).mp hn).1).2,
      ((Bool.and_eq_true _ _).mp hn).2⟩
  cases v with
  | null => exact ⟨rfl, rfl, rfl⟩
  | bool b => exact ⟨rfl, rfl, rfl⟩
  | num n => exact ⟨rfl, rfl, rfl⟩
  | str s => exact ⟨rfl, rfl, rfl⟩
  | arr xs => exact ⟨rfl, rfl, rfl⟩
  | obj kvs =>
    refine ⟨?_, ?_, ?_⟩
    · show (if jsTruthy (objGet (.obj kvs) "morning") then
          match objGet (objGet (.obj kvs) "morning") "gratitude" with
          | .arr gs => (gs.filter truthyFilled).length
          | _ => 0
        else 0) = _
      by_cases hmt : jsTruthy (objGet (.obj kvs) "morning") = true
      · rw [if_pos hmt, if_pos hmt]
        rw [wfMorning, if_pos hmt] at hm
        cases hg : objGet (objGet (.obj kvs) "morning") "gratitude" with
        | arr gs =>
          rw [hg] at hm
          have hall := List.all_eq_true.mp ((Bool.and_eq_true _ _).mp hm).2
          show (gs.filter truthyFilled).length = countNonemptyStr gs
          rw [countNonemptyStr]
          congr 1
          apply List.filter_congr
          intro g hg2
          rw [show truthyFilled g = jsTruthy g from rfl]
          exact jsTruthy_eq_isNonemptyStr g (hall g hg2)
        | null => rfl
        | bool b => rfl
        | num n => rfl
        | str s => rfl
        | obj kvs2 => rfl
      · rw [if_neg hmt, if_neg hmt]
    · show (if jsTruthy (objGet (.obj kvs) "midday") then
          match objGet (objGet (.obj kvs) "midday") "caught" with
          | .arr fs => (fs.filter truthyFilled).length
          | _ => 0
        else 0) = _
      by_cases hmt : jsTruthy (objGet (.obj kvs) "midday") = true
      · rw [if_pos hmt, if_pos hmt]
        rw [wfMidday, if_pos hmt] at hmid
        cases hg : objGet (objGet (.obj kvs) "midday") "caught" with
        | arr fs =>
          rw [hg] at hmid
          have hall := List.all_eq_true.mp ((Bool.and_eq_true _ _).mp hmid).2
          show (fs.filter truthyFilled).length = countTrueBool fs
          rw [countTrueBool]
          congr 1
          apply List.filter_congr
          intro g hg2
          rw [show truthyFilled g = jsTruthy g from rfl]
          exact jsTruthy_eq_isTrueBool g (hall g hg2)
        | null => rfl
        | bool b => rfl
        | num n => rfl
        | str s => rfl
        | obj kvs2 => rfl
      · rw [if_neg hmt, if_neg hmt]
    · show (([objGet (objGet (.obj kvs) "night") "wentWell",
          objGet (objGet (.obj kvs) "night") "handled",
          objGet (objGet (.obj kvs) "night") "improve"].filter truthyFilled).length) = _
      rw [filter3_truthy_length]
      rw [jsTruthy_eq_isNonemptyStr _ hn1, jsTruthy_eq_isNonemptyStr _ hn2,
        jsTruthy_eq_isNonemptyStr _ hn3]

/-! ## Small lemmas for the malformed-entry cases -/

/-- Reading a property of a non-object value gives `null`. -/
theorem objGet_of_nonobj (v : JSValue) (k : String)
    (h : ∀ kvs, v ≠ JSValue.obj kvs) : objGet v k = .null := by
  cases v with
  | obj kvs => exact absurd rfl (h kvs)
  | null => rfl
  | bool b => rfl
  | num n => rfl
  | str s => rfl
  | arr xs => rfl

/-- A falsy `morning` yields a zero gratitude summary count. -/
theorem renderCounts_morning_falsy (v : JSValue)
    (h : jsTruthy (objGet v "morning") = false) :
    (renderHistoryItemCounts v).1 = 0 := by
  cases v with
  | null => rfl
  | bool b => rfl
  | num n => rfl
  | str s => rfl
  | arr xs => rfl
  | obj kvs =>
    show (if jsTruthy (objGet (.obj kvs) "morning") then
        match objGet (objGet (.obj kvs) "morning") "gratitude" with
        | .arr gs => (gs.filter truthyFilled).length
        | _ => 0
      else 0) = 0
    rw [if_neg (by simp [h])]

/-- A `morning.gratitude` that is not an array yields a zero gratitude
summary count. -/
theorem renderCounts_gratitude_malformed (v : JSValue)
    (h : ∀ gs, objGet (objGet v "morning") "gratitude" ≠ JSValue.arr gs) :
    (renderHistoryItemCounts v).1 = 0 := by
  cases v with
  | null => rfl
  | bool b => rfl
  | num n => rfl
  | str s => rfl
  | arr xs => rfl
  | obj kvs =>
    show (if jsTruthy (objGet (.obj kvs) "morning") then
        match objGet (objGet (.obj kvs) "morning") "gratitude" with
        | .arr gs => (gs.filter truthyFilled).length
        | _ => 0
      else 0) = 0
    by_cases hm : jsTruthy (objGet (.obj kvs) "morning") = true
    · rw [if_pos hm]
      cases hg : objGet (objGet (.obj kvs) "morning") "gratitude" with
      | arr gs => exact absurd hg (h gs)
      | null => rfl
      | bool b => rfl
      | num n => rfl
      | str s => rfl
      | obj kvs2 => rfl
    · rw [if_neg hm]

/-- A falsy `midday` yields a zero caught summary count. -/
theorem renderCounts_midday_falsy (v : JSValue)
    (h : jsTruthy (objGet v "midday") = false) :
    (renderHistoryItemCounts v).2.1 = 0 := by
  cases v with
  | null => rfl
  | bool b => rfl
  | num n => rfl
  | str s => rfl
  | arr xs => rfl
  | obj kvs =>
    show (if jsTruthy (objGet (.obj kvs) "midday") then
        match objGet (objGet (.obj kvs) "midday") "caught" with
        | .arr fs => (fs.filter truthyFilled).length
        | _ => 0
      else 0) = 0
    rw [if_neg (by simp [h])]

/-- A `midday.caught` that is not an array yields a zero caught summary
count. -/
theorem renderCounts_caught_malformed (v : JSValue)
    (h : ∀ fs, objGet (objGet v "midday") "caught" ≠ JSValue.arr fs) :
    (renderHistoryItemCounts v).2.1 = 0 := by
  cases v with
  | null => rfl
  | bool b => rfl
  | num n => rfl
  | str s => rfl
  | arr xs => rfl
  | obj kvs =>
    show (if jsTruthy (objGet (.obj kvs) "midday") then
        match objGet (objGet (.obj kvs) "midday") "caught" with
        | .arr fs => (fs.filter truthyFilled).length
        | _ => 0
      else 0) = 0
    by_cases hm : jsTruthy (objGet (.obj kvs) "midday") = true
    · rw [if_pos hm]
      cases hg : objGet (objGet (.obj kvs) "midday") "caught" with
      | arr fs => exact absurd hg (h fs)
      | null => rfl
      | bool b => rfl
      | num n => rfl
      | str s => rfl
      | obj kvs2 => rfl
    · rw [if_neg hm]

/-- A `night` that is not an object yields a zero night summary count. -/
theorem renderCounts_night_malformed (v : JSValue)
    (h : ∀ kvs, objGet v "night" ≠ JSValue.obj kvs) :
    (renderHistoryItemCounts v).2.2 = 0 := by
  cases v with
  | null => rfl
  | bool b => rfl
  | num n => rfl
  | str s => rfl
  | arr xs => rfl
  | obj kvs =>
    show (([objGet (objGet (.obj kvs) "night") "wentWell",
        objGet (objGet (.obj kvs) "night") "handled",
        objGet (objGet (.obj kvs) "night") "improve"].filter truthyFilled).length) = 0
    rw [objGet_of_nonobj _ _ h, objGet_of_nonobj _ _ h, objGet_of_nonobj _ _ h]
    rfl

/-- Every value looked up in a well-formed collection is well-formed (a
missed lookup gives `null`, which is trivially well-formed). -/
theorem objGet_wf (entries : List (String × JSValue)) (k : String)
    (hwf : wfCollection entries = true) :
    wfEntryJS (objGet (.obj entries) k) = true := by
  rw [objGet]
  cases hf : entries.find? (fun kv => kv.1 == k) with
  | some kv =>
    rw [wfCollection, List.all_eq_true] at hwf
    exact hwf kv (List.mem_of_find?_eq_some hf)
  | none => rfl

/-- The summary counts stay within the data model's three slots on
well-formed entries. -/
theorem renderHistoryItemCounts_bounds (v : JSValue) (hv : wfEntryJS v = true) :
    (renderHistoryItemCounts v).1 ≤ 3 ∧ (renderHistoryItemCounts v).2.1 ≤ 3 ∧
    (renderHistoryItemCounts v).2.2 ≤ 3 := by
  obtain ⟨h1, h2, h3⟩ := renderHistoryItemCounts_spec v hv
  rw [wfEntryJS] at hv
  have hm : wfMorning v = true := ((Bool.and_eq_true _ _).mp ((Bool.and_eq_true _ _).mp hv).1).1
  have hmid : wfMidday v = true := ((Bool.and_eq_true _ _).mp ((Bool.and_eq_true _ _).mp hv).1).2
  refine ⟨?_, ?_, ?_⟩
  · rw [h1]
    by_cases hmt : jsTruthy (objGet v "morning") = true
    · rw [if_pos hmt]
      rw [wfMorning, if_pos hmt] at hm
      cases hg : objGet (objGet v "morning") "gratitude" with
      | arr gs =>
        rw [hg] at hm
        have hlen : gs.length ≤ 3 := by
          have := ((Bool.and_eq_true _ _).mp hm).1
          simpa using this
        calc (gs.filter isNonemptyStr).length ≤ gs.length := List.length_filter_le _ _
          _ ≤ 3 := hlen
      | null => exact Nat.zero_le 3
      | bool b => exact Nat.zero_le 3
      | num n => exact Nat.zero_le 3
      | str s => exact Nat.zero_le 3
      | obj kvs => exact Nat.zero_le 3
    · rw [if_neg hmt]
      omega
  · rw [h2]
    by_cases hmt : jsTruthy (objGet v "midday") = true
    · rw [if_pos hmt]
      rw [wfMidday, if_pos hmt] at hmid
      cases hg : objGet (objGet v "midday") "caught" with
      | arr fs =>
        rw [hg] at hmid
        have hlen : fs.length ≤ 3 := by
          have := ((Bool.and_eq_true _ _).mp hmid).1
          simpa using this
        calc (fs.filter isTrueBool).length ≤ fs.length := List.length_filter_le _ _
          _ ≤ 3 := hlen
      | null => exact Nat.zero_le 3
      | bool b => exact Nat.zero_le 3
      | num n => exact Nat.zero_le 3
      | str s => exact Nat.zero_le 3
      | obj kvs => exact Nat.zero_le 3
    · rw [if_neg hmt]
      omega
  · rw [h3]
    split <;> split <;> split <;> omega

/-! ## The claims -/

/-- Claim C1, counterexample.  The claim states that when the backend write
performed by an upsert fails, the failure is reported to the caller AND the
collection returned to the caller still reflects the update.  At this
concrete input a rejecting backend write makes `saveCurrent` report the
failure (the error alert fires) while the resulting in-memory collection is
still the pre-save empty collection — the update to key 2025-10-05 is not
reflected. -/
theorem claim_C1_counterexample :
    (saveCurrent [] "2025-10-05" (DailyEntry.toJS getEmptyEntry)
      { blob := none } true).alerted = true ∧
    (saveCurrent [] "2025-10-05" (DailyEntry.toJS getEmptyEntry)
      { blob := none } true).entries = [] := by
  exact ⟨rfl, rfl⟩

/-- Claim C1, amended.  For every collection, key, entry and backend state:
a backend write that rejects makes `saveCurrent` report the failure to the
caller and leave both the in-memory collection and the backend unchanged —
the update is dropped, not kept optimistically; a write that fails inside
the web `localStorage` wrapper (which swallows its own exceptions) is not
reported at all, and then the in-memory collection does reflect the
update. -/
theorem claim_C1_save_failure_semantics (entries : List (String × JSValue))
    (k : String) (e : JSValue) (st : StoreState) :
    (saveCurrent entries k e st true).alerted = true ∧
    (saveCurrent entries k e st true).entries = entries ∧
    (saveCurrent entries k e st true).store = st ∧
    (saveCurrent entries k e st false).entries = objUpsert entries k e ∧
    (saveCurrentLocalStorage entries k e st true).alerted = false ∧
    (saveCurrentLocalStorage entries k e st true).entries = objUpsert entries k e ∧
    (saveCurrentLocalStorage entries k e st true).store = st := by
  exact ⟨rfl, rfl, rfl, rfl, rfl, rfl, rfl⟩

/-- Claim C2, counterexample.  The claim states that `load` returns an
empty collection whenever the stored blob is not parseable as the expected
shape, listing "not an object" among those cases.  The persisted payload
`[1,2]` is valid JSON but a JSON array, not an object mapping; `load`
nevertheless accepts it as the collection instead of returning the empty
collection, because the guard only checks JavaScript `typeof`, which is
'object' for arrays. -/
theorem claim_C2_counterexample :
    loadEntries (.ok (some "[1,2]")) = .arr [.num 1, .num 2] ∧
    loadEntries (.ok (some "[1,2]")) ≠ .obj [] := by
  have h1 : loadEntries (.ok (some "[1,2]")) = .arr [.num 1, .num 2] := rfl
  refine ⟨h1, fun h => ?_⟩
  exact JSValue.noConfusion (h1.symm.trans h)

/-- Claim C2, amended.  `load` returns the empty collection when the
backend read rejects, when the blob is absent or the empty string, when
`JSON.parse` throws, and when the parsed value is falsy or not of
JavaScript type 'object'; no error is propagated in any of these cases
(the function is total).  A truthy parsed value of type 'object' — which
includes arrays — is accepted as the collection as-is. -/
theorem claim_C2_load_failure_semantics :
    loadEntries (.error ()) = .obj [] ∧
    loadEntries (.ok none) = .obj [] ∧
    loadEntries (.ok (some "")) = .obj [] ∧
    (∀ s : String, parseJSON s = none → loadEntries (.ok (some s)) = .obj []) ∧
    (∀ s : String, ∀ v : JSValue, parseJSON s = some v →
      (jsTruthy v && jsTypeofObject v) = false → loadEntries (.ok (some s)) = .obj []) ∧
    (∀ s : String, ∀ v : JSValue, parseJSON s = some v →
      (jsTruthy v && jsTypeofObject v) = true → loadEntries (.ok (some s)) = v) := by
  refine ⟨rfl, rfl, rfl, ?_, ?_, ?_⟩
  · intro s hp
    rw [loadEntries]
    by_cases hs : s = ""
    · rw [if_pos hs]
    · rw [if_neg hs, hp]
  · intro s v hp hguard
    rw [loadEntries]
    by_cases hs : s = ""
    · rw [if_pos hs]
    · rw [if_neg hs, hp]
      show (if (jsTruthy v && jsTypeofObject v) = true then v else JSValue.obj [])
        = JSValue.obj []
      rw [if_neg (by simp [hguard])]
  · intro s v hp hguard
    rw [loadEntries]
    by_cases hs : s = ""
    · exfalso
      rw [hs] at hp
      exact Option.noConfusion ((rfl : parseJSON "" = none).symm.trans hp)
    · rw [if_neg hs, hp]
      show (if (jsTruthy v && jsTypeofObject v) = true then v else JSValue.obj []) = v
      rw [if_pos hguard]

/-- Claim C2, witness: the spec's own example payload.  The malformed
stored blob `not-json{{` fails to parse, and `load` returns the empty
collection without any error escaping. -/
theorem claim_C2_witness :
    parseJSON "not-json\x7b\x7b" = none ∧
    loadEntries (.ok (some "not-json\x7b\x7b")) = .obj [] := by
  refine ⟨rfl, ?_⟩
  exact claim_C2_load_failure_semantics.2.2.2.1 "not-json\x7b\x7b" rfl

/-- Claim C9.  A persisted payload that is valid JSON but a JSON array
rather than an object mapping — here `[1,2]` — passes the
`parsed && typeof parsed === 'object'` guard, because arrays are truthy and
of JavaScript type 'object', so `load` accepts the parsed array as the
entry collection instead of returning an empty collection. -/
theorem claim_C9_array_passes_guard :
    parseJSON "[1,2]" = some (.arr [.num 1, .num 2]) ∧
    jsTruthy (.arr [.num 1, .num 2]) = true ∧
    jsTypeofObject (.arr [.num 1, .num 2]) = true ∧
    loadEntries (.ok (some "[1,2]")) = .arr [.num 1, .num 2] := by
  exact ⟨rfl, rfl, rfl, rfl⟩

/-- Claim C8.  Upsert is idempotent: writing the same entry twice under the
same key gives the same collection as writing it once.  Moreover on a
collection with unique keys the upserted collection holds exactly one
binding for the key, and that binding maps the key to the new entry. -/
theorem claim_C8_upsert_idempotent_and_unique (c : List (String × JSValue))
    (k : String) (e : JSValue) (hnodup : (c.map (fun kv => kv.1)).Nodup) :
    objUpsert (objUpsert c k e) k e = objUpsert c k e ∧
    (objUpsert c k e).countP (fun kv => kv.1 == k) = 1 ∧
    objGet (.obj (objUpsert c k e)) k = e := by
  exact ⟨objUpsert_idem c k e, objUpsert_countP c k e hnodup, objGet_objUpsert c k e⟩

/-- Claim C8, witness: upserting the key 2025-10-05 into a one-entry
collection with a different key. -/
theorem claim_C8_witness :
    ((([("2025-10-04", JSValue.obj [])] : List (String × JSValue)).map
      (fun kv => kv.1)).Nodup) ∧
    (objUpsert (objUpsert [("2025-10-04", JSValue.obj [])] "2025-10-05" (.obj []))
        "2025-10-05" (.obj [])
      = objUpsert [("2025-10-04", JSValue.obj [])] "2025-10-05" (.obj []) ∧
    (objUpsert [("2025-10-04", JSValue.obj [])] "2025-10-05" (.obj [])).countP
        (fun kv => kv.1 == "2025-10-05") = 1 ∧
    objGet (.obj (objUpsert [("2025-10-04", JSValue.obj [])] "2025-10-05" (.obj [])))
        "2025-10-05" = .obj []) :=
  ⟨by decide, claim_C8_upsert_idempotent_and_unique
    [("2025-10-04", JSValue.obj [])] "2025-10-05" (.obj []) (by decide)⟩

/-- Claim C5, counterexample.  The claim asserts that for every `n` the
series window holds at most `n` elements.  At `n = 0` JavaScript's
`slice(-0)` is `slice(0)`, the whole array, so `getLastNDays` of a
one-entry collection returns one date, not at most zero. -/
theorem claim_C5_counterexample :
    getLastNDays [("2025-10-05", JSValue.obj [])] 0 = ["2025-10-05"] ∧
    ¬ (getLastNDays [("2025-10-05", JSValue.obj [])] 0).length ≤ 0 := by
  refine ⟨rfl, ?_⟩
  rw [show getLastNDays [("2025-10-05", JSValue.obj [])] 0 = ["2025-10-05"] from rfl]
  decide

/-- Claim C5, amended.  On a collection with unique keys: the history
summary lists its dates in strictly descending lexicographic order with at
most 7 entries; for every `n ≥ 1` the chart window lists its dates in
strictly ascending lexicographic order with at most `n` entries (fewer when
the collection is smaller); the empty collection yields empty sequences
from both.  At `n = 0`, however, `slice(-0)` keeps every date: the chart
window is the full ascending key list rather than an empty one. -/
theorem claim_C5_ordering (entries : List (String × JSValue)) (n : Nat)
    (hkeys : (entries.map (fun kv => kv.1)).Nodup) (hn : 1 ≤ n) :
    List.Pairwise (fun a b : String => b < a)
      ((historyArray entries).map (fun kv => kv.1)) ∧
    (historyArray entries).length ≤ 7 ∧
    List.Pairwise (fun a b : String => a < b) (getLastNDays entries n) ∧
    (getLastNDays entries n).length ≤ n ∧
    historyArray ([] : List (String × JSValue)) = [] ∧
    getLastNDays ([] : List (String × JSValue)) n = [] ∧
    getLastNDays entries 0 = sortedKeysAsc entries := by
  have hasc := sortedKeysAsc_strict entries hkeys
  refine ⟨?_, ?_, ?_, ?_, ?_, ?_, ?_⟩
  · rw [historyArray_keys]
    exact List.Pairwise.sublist (List.take_sublist 7 _) (sortedKeysDesc_strict entries hkeys)
  · rw [historyArray, List.length_map]
    exact List.length_take_le 7 _
  · rw [getLastNDays, if_neg (by omega)]
    exact List.Pairwise.sublist (List.drop_sublist _ _) hasc
  · rw [getLastNDays, if_neg (by omega), List.length_drop]
    omega
  · rfl
  · rw [getLastNDays, if_neg (by omega)]
    rw [show sortedKeysAsc ([] : List (String × JSValue)) = [] from rfl, List.drop_nil]
  · rw [getLastNDays, if_pos rfl]

/-- Claim C5, witness: a two-entry collection and the window width 7. -/
theorem claim_C5_witness :
    List.Pairwise (fun a b : String => b < a)
      ((historyArray [("2025-10-04", JSValue.obj []), ("2025-10-05", JSValue.obj [])]).map
        (fun kv => kv.1)) ∧
    (historyArray [("2025-10-04", JSValue.obj []), ("2025-10-05", JSValue.obj [])]).length ≤ 7 ∧
    List.Pairwise (fun a b : String => a < b)
      (getLastNDays [("2025-10-04", JSValue.obj []), ("2025-10-05", JSValue.obj [])] 7) ∧
    (getLastNDays [("2025-10-04", JSValue.obj []), ("2025-10-05", JSValue.obj [])] 7).length ≤ 7 ∧
    historyArray ([] : List (String × JSValue)) = [] ∧
    getLastNDays ([] : List (String × JSValue)) 7 = [] ∧
    getLastNDays [("2025-10-04", JSValue.obj []), ("2025-10-05", JSValue.obj [])] 0
      = sortedKeysAsc [("2025-10-04", JSValue.obj []), ("2025-10-05", JSValue.obj [])] :=
  claim_C5_ordering [("2025-10-04", JSValue.obj []), ("2025-10-05", JSValue.obj [])] 7
    (by decide) (by decide)

/-- The spec's example entry: two filled gratitude slots, one filled night
field. -/
def exampleEntry : JSValue :=
  .obj [("morning", .obj [("gratitude", .arr [.str "a", .str "b", .str ""])]),
    ("night", .obj [("wentWell", .str "x")])]

/-- Claim C3.  The completion series pairs each date of the ascending
last-7 window with `round(100 * filledCount / 6)`, where the filled count
is the number of gratitude slots with non-empty trimmed text plus the
number of night fields with non-empty trimmed text; a falsy (missing)
sub-record contributes zero; on well-formed collections every reported
percent is an integer within [0, 100]; and the spec's singleton example
yields exactly the point (2025-10-05, 50). -/
theorem claim_C3_daily_completion_series (entries : List (String × JSValue))
    (hwf : wfCollection entries = true) :
    getConsistencyData entries = (getLastNDays entries 7).map
      (fun d => (d, jsRound (100 * (gratitudeCountOf (chartEntryFor entries d)
        + nightCountOf (chartEntryFor entries d))) 6)) ∧
    (∀ p ∈ getConsistencyData entries, p.2 ≤ 100) ∧
    (∀ e : JSValue, jsTruthy (objGet e "morning") = false → gratitudeCountOf e = 0) ∧
    (∀ e : JSValue, jsTruthy (objGet e "night") = false → nightCountOf e = 0) ∧
    getConsistencyData [("2025-10-05", exampleEntry)] = [("2025-10-05", 50)] := by
  refine ⟨rfl, ?_, ?_, ?_, rfl⟩
  · intro p hp
    rw [getConsistencyData] at hp
    obtain ⟨d, _, rfl⟩ := List.mem_map.mp hp
    have hwfe := chartEntryFor_wf entries d hwf
    rw [wfEntryJS] at hwfe
    have hm : wfMorning (chartEntryFor entries d) = true :=
      ((Bool.and_eq_true _ _).mp ((Bool.and_eq_true _ _).mp hwfe).1).1
    show jsRound (100 * (gratitudeCountOf (chartEntryFor entries d)
      + nightCountOf (chartEntryFor entries d))) 6 ≤ 100
    apply jsRound6_le
    have h1 := gratitudeCountOf_le (chartEntryFor entries d) hm
    have h2 := nightCountOf_le (chartEntryFor entries d)
    omega
  · intro e he
    rw [gratitudeCountOf, if_neg (by simp [he])]
  · intro e he
    rw [nightCountOf, if_neg (by simp [he])]

/-- Claim C3, witness: the spec's singleton example discharges the
well-formedness hypothesis. -/
theorem claim_C3_witness :
    wfCollection [("2025-10-05", exampleEntry)] = true ∧
    getConsistencyData [("2025-10-05", exampleEntry)] = [("2025-10-05", 50)] :=
  ⟨rfl, (claim_C3_daily_completion_series [("2025-10-05", exampleEntry)] rfl).2.2.2.2⟩

/-- Example entry for the complaint chart: the Complaining flag is set. -/
def exampleEntryMidday : JSValue :=
  .obj [("midday", .obj [("caught", .arr [.bool true, .bool false, .bool false]),
    ("reframe", .str "")])]

/-- Claim C4.  The gratitude-and-complaint series pairs each window date
with `complaintPercent` and `gratitudePercent = round(100 * count / 3)`;
the complaint percentage is always exactly 0 or 100; on well-formed
collections it is 100 exactly when `midday.caught[0]` is the boolean true,
and an entry with no `midday.caught` array reports 0. -/
theorem claim_C4_gratitude_complaint_series (entries : List (String × JSValue))
    (n : Nat) (hwf : wfCollection entries = true) :
    getGratitudeAndComplaintData entries n = (getLastNDays entries n).map
      (fun d => (d, complaintPercent (chartEntryFor entries d),
        jsRound (100 * gratitudeCountOf (chartEntryFor entries d)) 3)) ∧
    (∀ p ∈ getGratitudeAndComplaintData entries n,
      (p.2.1 = 0 ∨ p.2.1 = 100) ∧ p.2.2 ≤ 100) ∧
    (∀ d ∈ getLastNDays entries n,
      complaintPercent (chartEntryFor entries d)
        = if caughtHeadIsTrue (chartEntryFor entries d) then 100 else 0) ∧
    (∀ e : JSValue, (∀ fs, objGet (objGet e "midday") "caught" ≠ .arr fs) →
      complaintPercent e = 0) := by
  refine ⟨rfl, ?_, ?_, ?_⟩
  · intro p hp
    rw [getGratitudeAndComplaintData] at hp
    obtain ⟨d, _, rfl⟩ := List.mem_map.mp hp
    constructor
    · exact complaintPercent_binary (chartEntryFor entries d)
    · have hwfe := chartEntryFor_wf entries d hwf
      rw [wfEntryJS] at hwfe
      have hm : wfMorning (chartEntryFor entries d) = true :=
        ((Bool.and_eq_true _ _).mp ((Bool.and_eq_true _ _).mp hwfe).1).1
      show jsRound (100 * gratitudeCountOf (chartEntryFor entries d)) 3 ≤ 100
      exact jsRound3_le _ (gratitudeCountOf_le _ hm)
  · intro d _
    have hwfe := chartEntryFor_wf entries d hwf
    rw [wfEntryJS] at hwfe
    have hmid : wfMidday (chartEntryFor entries d) = true :=
      ((Bool.and_eq_true _ _).mp ((Bool.and_eq_true _ _).mp hwfe).1).2
    rw [complaintPercent, complainedOf_eq_head _ hmid]
  · exact complaintPercent_no_array

/-- Claim C4, witness: a singleton collection whose entry has the
Complaining flag set. -/
theorem claim_C4_witness :
    wfCollection [("2025-10-05", exampleEntryMidday)] = true ∧
    (∀ p ∈ getGratitudeAndComplaintData [("2025-10-05", exampleEntryMidday)] 7,
      (p.2.1 = 0 ∨ p.2.1 = 100) ∧ p.2.2 ≤ 100) :=
  ⟨rfl, (claim_C4_gratitude_complaint_series [("2025-10-05", exampleEntryMidday)] 7
    rfl).2.1⟩

/-- Claim C6.  For every item selected by the history summary of a
well-formed collection, the three displayed counts are exactly the number
of non-empty gratitude strings, the number of caught flags that are the
boolean true, and the number of non-empty night fields, each an integer
within [0, 3]; and an entry whose morning, midday or night sub-record is
missing or malformed contributes 0 to the corresponding count (the count
functions are total, so no error can arise). -/
theorem claim_C6_history_summary_counts (entries : List (String × JSValue))
    (hwf : wfCollection entries = true) :
    (∀ item ∈ historyArray entries,
      (renderHistoryItemCounts item.2).1 =
        (if jsTruthy (objGet item.2 "morning") then
          match objGet (objGet item.2 "morning") "gratitude" with
          | .arr gs => countNonemptyStr gs
          | _ => 0
        else 0) ∧
      (renderHistoryItemCounts item.2).2.1 =
        (if jsTruthy (objGet item.2 "midday") then
          match objGet (objGet item.2 "midday") "caught" with
          | .arr fs => countTrueBool fs
          | _ => 0
        else 0) ∧
      (renderHistoryItemCounts item.2).2.2 =
        (if isNonemptyStr (objGet (objGet item.2 "night") "wentWell") then 1 else 0) +
        (if isNonemptyStr (objGet (objGet item.2 "night") "handled") then 1 else 0) +
        (if isNonemptyStr (objGet (objGet item.2 "night") "improve") then 1 else 0) ∧
      (renderHistoryItemCounts item.2).1 ≤ 3 ∧
      (renderHistoryItemCounts item.2).2.1 ≤ 3 ∧
      (renderHistoryItemCounts item.2).2.2 ≤ 3) ∧
    (∀ w : JSValue, jsTruthy (objGet w "morning") = false →
      (renderHistoryItemCounts w).1 = 0) ∧
    (∀ w : JSValue, (∀ gs, objGet (objGet w "morning") "gratitude" ≠ .arr gs) →
      (renderHistoryItemCounts w).1 = 0) ∧
    (∀ w : JSValue, jsTruthy (objGet w "midday") = false →
      (renderHistoryItemCounts w).2.1 = 0) ∧
    (∀ w : JSValue, (∀ fs, objGet (objGet w "midday") "caught" ≠ .arr fs) →
      (renderHistoryItemCounts w).2.1 = 0) ∧
    (∀ w : JSValue, (∀ kvs, objGet w "night" ≠ .obj kvs) →
      (renderHistoryItemCounts w).2.2 = 0) := by
  refine ⟨?_, renderCounts_morning_falsy, renderCounts_gratitude_malformed,
    renderCounts_midday_falsy, renderCounts_caught_malformed,
    renderCounts_night_malformed⟩
  intro item hitem
  have hv : wfEntryJS item.2 = true := by
    rw [historyArray] at hitem
    obtain ⟨k, _, rfl⟩ := List.mem_map.mp hitem
    exact objGet_wf entries k hwf
  obtain ⟨h1, h2, h3⟩ := renderHistoryItemCounts_spec item.2 hv
  obtain ⟨b1, b2, b3⟩ := renderHistoryItemCounts_bounds item.2 hv
  exact ⟨h1, h2, h3, b1, b2, b3⟩

/-- Claim C6, witness: the history summary of a singleton well-formed
collection satisfies the count characterization. -/
theorem claim_C6_witness :
    wfCollection [("2025-10-05", exampleEntry)] = true ∧
    (∀ item ∈ historyArray [("2025-10-05", exampleEntry)],
      (renderHistoryItemCounts item.2).1 ≤ 3 ∧
      (renderHistoryItemCounts item.2).2.1 ≤ 3 ∧
      (renderHistoryItemCounts item.2).2.2 ≤ 3) := by
  refine ⟨rfl, ?_⟩
  intro item hitem
  have h := (claim_C6_history_summary_counts [("2025-10-05", exampleEntry)] rfl).1
    item hitem
  exact ⟨h.2.2.2.1, h.2.2.2.2.1, h.2.2.2.2.2⟩

/-- Whitespace-gratitude entry: one slot holds a single blank. -/
def wsEntry : JSValue :=
  .obj [("morning", .obj [("gratitude", .arr [.str " ", .str "", .str ""])])]

/-- Claim C10.  Both chart series count a field only when its trimmed text
is non-empty, so a whitespace-only string is empty to them, while the
history summary counts plain truthiness, so the same string is non-empty to
it; on the singleton collection whose entry holds the single gratitude
slot " ", the history summary reports gratitude count 1 while the
completion series uses filled count 0 (and so reports 0 percent) — the
history count strictly exceeds the chart count for the same date. -/
theorem claim_C10_whitespace_divergence :
    (∀ s : String, s ≠ "" → s.data.all Char.isWhitespace = true →
      chartFilled (.str s) = false ∧ truthyFilled (.str s) = true) ∧
    historyArray [("2025-10-05", wsEntry)] = [("2025-10-05", wsEntry)] ∧
    (renderHistoryItemCounts wsEntry).1 = 1 ∧
    gratitudeCountOf wsEntry + nightCountOf wsEntry = 0 ∧
    getConsistencyData [("2025-10-05", wsEntry)] = [("2025-10-05", 0)] ∧
    (renderHistoryItemCounts wsEntry).1 >
      gratitudeCountOf wsEntry + nightCountOf wsEntry := by
  refine ⟨?_, rfl, rfl, rfl, rfl, by decide⟩
  intro s hne hws
  constructor
  · rw [chartFilled]
    simp [hws]
  · rw [truthyFilled]
    simp [jsTruthy, hne]

/-- Claim C10, witness: the single blank " " is whitespace-only and
non-empty, counted by the history summary but not by the charts. -/
theorem claim_C10_witness :
    (" " : String) ≠ "" ∧ (" " : String).data.all Char.isWhitespace = true ∧
    chartFilled (.str " ") = false ∧ truthyFilled (.str " ") = true := by
  have h := claim_C10_whitespace_divergence.1 " " (by decide) (by decide)
  exact ⟨by decide, by decide, h.1, h.2⟩

/-- Claim C7.  Round-trip: for any entry collection with unique date keys,
upserting every key in turn into an empty store (all writes succeeding,
each rewriting the whole serialized blob) and then loading from the same
backend yields exactly the collection's JavaScript object form — the
persisted mapping is structurally equal to the collection that was saved. -/
theorem claim_C7_upsert_load_roundtrip (C : List (String × DailyEntry))
    (hkeys : (C.map Prod.fst).Nodup) :
    loadAfterUpserts C = .obj (C.map (fun ke => (ke.1, DailyEntry.toJS ke.2))) := by
  rw [loadAfterUpserts, upsertAll]
  rw [saveCurrent_foldl C [] { blob := none } false (by intro ke _ kv hkv; cases hkv) hkeys]
  cases C with
  | nil => rfl
  | cons ke C2 =>
    rw [show (ke :: C2).isEmpty = false from rfl]
    simp only [if_neg Bool.false_ne_true, List.nil_append]
    set M := (ke :: C2).map (fun ke => (ke.1, DailyEntry.toJS ke.2)) with hM
    show loadEntries (.ok (some (jsonStringify (.obj M)))) = .obj M
    rw [loadEntries]
    rw [if_neg (jsonStringify_obj_ne_empty M)]
    rw [parseJSON_stringify (.obj M) (by
      rw [show noNum (.obj M) = noNumMembers M by simp [noNum]]
      exact noNumMembers_entryMap (ke :: C2))]
    rfl

/-- Claim C7, witness: a concrete two-day collection (one empty entry, one
with text in every field) survives the save-then-load round trip. -/
theorem claim_C7_witness :
    (([("2025-10-04", getEmptyEntry),
      ("2025-10-05",
        { morning := { gratitude := ["sunshine", "a walk", ""] }
          midday := { caught := [true, false, true], reframe := "note" }
          night := { wentWell := "w", handled := "h", improve := "i" } })].map
        (Prod.fst (β := DailyEntry))).Nodup) ∧
    loadAfterUpserts [("2025-10-04", getEmptyEntry),
      ("2025-10-05",
        { morning := { gratitude := ["sunshine", "a walk", ""] }
          midday := { caught := [true, false, true], reframe := "note" }
          night := { wentWell := "w", handled := "h", improve := "i" } })]
      = .obj [("2025-10-04", DailyEntry.toJS getEmptyEntry),
          ("2025-10-05", DailyEntry.toJS
            { morning := { gratitude := ["sunshine", "a walk", ""] }
              midday := { caught := [true, false, true], reframe := "note" }
              night := { wentWell := "w", handled := "h", improve := "i" } })] :=
  ⟨by decide, claim_C7_upsert_load_roundtrip _ (by decide)⟩
